import Mathlib

/-!
Shallow embedding of the client-side coordination layer of the SystemSweep
desktop cleanup application: the central Zustand store (src/stores/appStore.ts),
the cleanup orchestrator hook (src/hooks/useCleanup.ts), the scan-completion
handler (src/hooks/useScanner.ts) and the duplicate smart-select operation
(src/components/views/Duplicates.tsx).

Modelling conventions:
- JS numbers holding byte sizes and counters are modelled as Nat.
- Timestamps that the code only ever compares (DuplicateFile.modified via
  Date.getTime, Notification.timestamp) are modelled as Int / Nat; timestamp
  strings that are never interpreted stay String.
- String interpolation in notification messages is modelled by the MsgText
  inductive, whose constructors record exactly which numeric values were
  interpolated into each template (formatBytes operates on floats and is not
  modelled further; the claims concern which values feed the message).
- Engine calls (Tauri invoke) are oracles: their outcome is passed in as an
  Except value, and the list of calls actually issued is returned explicitly.
- A thrown JS error is Except.error (some msg) when instanceof Error,
  Except.error none otherwise (the code then falls back to a generic text).
-/

/-- CleanupCategory from src/types/index.ts. -/
inductive CleanupCategory where
  | system_cache
  | browser_cache
  | temp_files
  | log_files
  | thumbnails
  | duplicates
  | large_files
  | old_files
  | trash
  | downloads
deriving DecidableEq

/-- RiskLevel from src/types/index.ts. -/
inductive RiskLevel where
  | safe
  | low
  | medium
  | high
deriving DecidableEq

/-- ScanResult from src/types/index.ts (fileType collapsed to its tag string). -/
structure ScanResult where
  id : String
  path : String
  name : String
  size : Nat
  fileType : String
  category : CleanupCategory
  lastAccessed : String
  lastModified : String
  isSelected : Bool
  risk : RiskLevel
  description : String
deriving DecidableEq

/-- DuplicateFile from src/types/index.ts; modified is the epoch time that
new Date(f.modified).getTime() yields in the comparator. -/
structure DuplicateFile where
  id : String
  path : String
  name : String
  size : Nat
  modified : Int
  isOriginal : Bool
  isSelected : Bool
deriving DecidableEq

/-- DuplicateGroup from src/types/index.ts. -/
structure DuplicateGroup where
  hash : String
  files : List DuplicateFile
  totalSize : Nat
  potentialSavings : Nat
deriving DecidableEq

/-- StartupItem from src/types/index.ts (impact and type collapsed to tags). -/
structure StartupItem where
  id : String
  name : String
  path : String
  enabled : Bool
  impact : String
  itemType : String
  description : Option String
deriving DecidableEq

/-- LargeFile from src/types/index.ts. -/
structure LargeFile where
  id : String
  path : String
  name : String
  size : Nat
  extension : String
  lastAccessed : String
  isSelected : Bool
deriving DecidableEq

/-- DiskUsage from src/types/index.ts. -/
structure DiskUsage where
  total : Nat
  used : Nat
  free : Nat
  mountPoint : String
deriving DecidableEq

/-- MemoryUsage from src/types/index.ts. -/
structure MemoryUsage where
  total : Nat
  used : Nat
  free : Nat
  cached : Nat
deriving DecidableEq

/-- SystemHealth from src/types/index.ts. -/
structure SystemHealth where
  diskUsage : DiskUsage
  memoryUsage : MemoryUsage
  cleanableSpace : Nat
  lastScan : Option String
  issuesFound : Nat
deriving DecidableEq

/-- CleanupSession status enum from src/types/index.ts. -/
inductive SessionStatus where
  | scanning
  | cleaning
  | completed
  | cancelled
  | error
deriving DecidableEq

/-- CleanupItem status enum from src/types/index.ts. -/
inductive ItemStatus where
  | pending
  | deleted
  | failed
  | skipped
deriving DecidableEq

/-- CleanupItem from src/types/index.ts. -/
structure CleanupItem where
  id : String
  path : String
  size : Nat
  status : ItemStatus
  error : Option String
  backupPath : Option String
deriving DecidableEq

/-- CleanupSession from src/types/index.ts. -/
structure CleanupSession where
  id : String
  startTime : String
  endTime : Option String
  filesScanned : Nat
  filesDeleted : Nat
  spaceFreed : Nat
  status : SessionStatus
  items : List CleanupItem
deriving DecidableEq

/-- RestoreItem from src/types/index.ts. -/
structure RestoreItem where
  originalPath : String
  backupPath : String
  size : Nat
  restored : Bool
deriving DecidableEq

/-- RestorePoint from src/types/index.ts. -/
structure RestorePoint where
  id : String
  timestamp : String
  description : String
  itemCount : Nat
  totalSize : Nat
  items : List RestoreItem
deriving DecidableEq

/-- ScanProgress phase enum from src/types/index.ts. -/
inductive ScanPhase where
  | initializing
  | scanning
  | analyzing
  | completed
deriving DecidableEq

/-- ScanProgress from src/types/index.ts. -/
structure ScanProgress where
  phase : ScanPhase
  currentPath : String
  filesScanned : Nat
  issuesFound : Nat
  estimatedTime : Nat
  progress : Nat
deriving DecidableEq

/-- Notification severity from src/types/index.ts. -/
inductive NotifType where
  | info
  | success
  | warning
  | error
deriving DecidableEq

/-- Message text of a notification. Literal strings are lit; interpolating
templates are constructors carrying the interpolated numbers:
dryRunSummary b n stands for the useCleanup template
Would free (formatBytes b) from n items, realSummary b n for
Freed (formatBytes b) from n files, and scanSummary n b for the useScanner
template Found n items totaling (formatBytes b). -/
inductive MsgText where
  | lit (s : String)
  | dryRunSummary (bytes : Nat) (items : Nat)
  | realSummary (bytes : Nat) (files : Nat)
  | scanSummary (items : Nat) (bytes : Nat)
deriving DecidableEq

/-- Notification from src/types/index.ts; timestamp as a comparable instant. -/
structure Notification where
  id : String
  type : NotifType
  title : String
  message : MsgText
  timestamp : Nat
  read : Bool
deriving DecidableEq

/-- The argument of addNotification: a Notification without id, timestamp and
read (Omit in src/stores/appStore.ts). -/
structure NotificationInput where
  type : NotifType
  title : String
  message : MsgText
deriving DecidableEq

/-- Settings from src/types/index.ts (theme and language collapsed to tags). -/
structure Settings where
  theme : String
  autoScan : Bool
  scanInterval : Nat
  dryRunDefault : Bool
  createRestorePoints : Bool
  maxRestorePoints : Nat
  secureDelete : Bool
  notifications : Bool
  minimizeToTray : Bool
  startWithSystem : Bool
  language : String
  excludedPaths : List String
  largeFileThreshold : Nat
  oldFileThreshold : Nat
deriving DecidableEq

/-- CategoryStats from src/stores/appStore.ts. -/
structure CategoryStats where
  category : CleanupCategory
  count : Nat
  size : Nat
  label : String
  icon : String
deriving DecidableEq

/-- AppState from src/stores/appStore.ts: the central store's fields. -/
structure AppState where
  sidebarCollapsed : Bool
  currentView : String
  isScanning : Bool
  isCleaning : Bool
  isDryRun : Bool
  scanResults : List ScanResult
  duplicates : List DuplicateGroup
  startupItems : List StartupItem
  largeFiles : List LargeFile
  systemHealth : Option SystemHealth
  currentSession : Option CleanupSession
  restorePoints : List RestorePoint
  scanProgress : Option ScanProgress
  notifications : List Notification
  categoryStats : List CategoryStats
  settings : Settings
deriving DecidableEq

/-- defaultSettings from src/stores/appStore.ts. -/
def defaultSettings : Settings where
  theme := "system"
  autoScan := false
  scanInterval := 7
  dryRunDefault := true
  createRestorePoints := true
  maxRestorePoints := 10
  secureDelete := false
  notifications := true
  minimizeToTray := true
  startWithSystem := false
  language := "en"
  excludedPaths := []
  largeFileThreshold := 100 * 1024 * 1024
  oldFileThreshold := 90

namespace AppStore

/-- setIsScanning from src/stores/appStore.ts. -/
def setIsScanning (scanning : Bool) (s : AppState) : AppState :=
  { s with isScanning := scanning }

/-- setIsCleaning from src/stores/appStore.ts. -/
def setIsCleaning (cleaning : Bool) (s : AppState) : AppState :=
  { s with isCleaning := cleaning }

/-- setScanResults from src/stores/appStore.ts. -/
def setScanResults (results : List ScanResult) (s : AppState) : AppState :=
  { s with scanResults := results }

/-- setDuplicates from src/stores/appStore.ts. -/
def setDuplicates (duplicates : List DuplicateGroup) (s : AppState) : AppState :=
  { s with duplicates := duplicates }

/-- setCurrentSession from src/stores/appStore.ts. -/
def setCurrentSession (session : Option CleanupSession) (s : AppState) : AppState :=
  { s with currentSession := session }

/-- setScanProgress from src/stores/appStore.ts. -/
def setScanProgress (progress : Option ScanProgress) (s : AppState) : AppState :=
  { s with scanProgress := progress }

/-- setCategoryStats from src/stores/appStore.ts. -/
def setCategoryStats (stats : List CategoryStats) (s : AppState) : AppState :=
  { s with categoryStats := stats }

/-- addRestorePoint from src/stores/appStore.ts: prepend, then Array.pop
(drop the last element) when the length exceeds settings.maxRestorePoints. -/
def addRestorePoint (point : RestorePoint) (s : AppState) : AppState :=
  let points := point :: s.restorePoints
  if points.length > s.settings.maxRestorePoints then
    { s with restorePoints := points.dropLast }
  else
    { s with restorePoints := points }

/-- addNotification from src/stores/appStore.ts. The fresh identity from
crypto.randomUUID() and the current instant from new Date() are passed in
as the pair fresh. -/
def addNotification (fresh : String × Nat) (n : NotificationInput) (s : AppState) : AppState :=
  { s with notifications :=
      ({ id := fresh.1
         type := n.type
         title := n.title
         message := n.message
         timestamp := fresh.2
         read := false } :: s.notifications).take 50 }

/-- clearNotifications from src/stores/appStore.ts. -/
def clearNotifications (s : AppState) : AppState :=
  { s with notifications := [] }

/-- toggleResultSelection from src/stores/appStore.ts. -/
def toggleResultSelection (id : String) (s : AppState) : AppState :=
  { s with scanResults :=
      s.scanResults.map fun r =>
        if r.id = id then { r with isSelected := !r.isSelected } else r }

/-- selectAllResults from src/stores/appStore.ts; the optional category
filter is Option (JS undefined is none). -/
def selectAllResults (category : Option CleanupCategory) (s : AppState) : AppState :=
  { s with scanResults :=
      s.scanResults.map fun r =>
        match category with
        | some c => if r.category = c then { r with isSelected := true } else r
        | none => { r with isSelected := true } }

/-- deselectAllResults from src/stores/appStore.ts. -/
def deselectAllResults (s : AppState) : AppState :=
  { s with scanResults := s.scanResults.map fun r => { r with isSelected := false } }

/-- reset from src/stores/appStore.ts. -/
def reset (s : AppState) : AppState :=
  { s with
    scanResults := []
    duplicates := []
    largeFiles := []
    currentSession := none
    scanProgress := none
    isScanning := false
    isCleaning := false }

end AppStore

/-- Local cleanup progress state of useCleanup (src/hooks/useCleanup.ts). -/
structure CleanupProgress where
  current : Nat
  total : Nat
  currentFile : String
deriving DecidableEq

/-- The engine calls performCleanup can issue, in issue order. -/
inductive EngineCall where
  | createRestorePointCall
  | performCleanupCall
deriving DecidableEq

/-- Result of one performCleanup run: final store, final local progress and
the engine calls that were issued. -/
structure CleanupOutcome where
  store : AppState
  progress : Option CleanupProgress
  calls : List EngineCall
deriving DecidableEq

namespace UseCleanup

/-- The error notification built in the catch block of performCleanup:
error.message when the rejection was an Error, generic fallback otherwise. -/
def errorNotification (e : Option String) : NotificationInput :=
  { type := NotifType.error
    title := "Cleanup Failed"
    message := MsgText.lit (match e with
      | some m => m
      | none => "Unknown error occurred") }

/-- The success notification built in performCleanup: in dry-run mode the
message interpolates the pre-run selection snapshot (selectedSize and
selectedItems.length); in a real run it interpolates the returned session's
spaceFreed and filesDeleted. -/
def successNotification (isDryRun : Bool) (selectedSize selectedCount : Nat)
    (session : CleanupSession) : NotificationInput :=
  { type := NotifType.success
    title := if isDryRun then "Dry Run Complete" else "Cleanup Complete"
    message :=
      if isDryRun then MsgText.dryRunSummary selectedSize selectedCount
      else MsgText.realSummary session.spaceFreed session.filesDeleted }

/-- performCleanup from src/hooks/useCleanup.ts. The two awaited engine
calls are oracles: restoreRes is what api.createRestorePoint would deliver,
cleanRes what api.performCleanup would deliver (Except.error e is a
rejection, with e = some msg for an Error instance). fresh is the identity
and instant used by the single addNotification of the run. p is the local
cleanupProgress state before the run. -/
def performCleanup (fresh : String × Nat)
    (restoreRes : Except (Option String) RestorePoint)
    (cleanRes : Except (Option String) CleanupSession)
    (s : AppState) (p : Option CleanupProgress) : CleanupOutcome :=
  let selectedItems := s.scanResults.filter (fun r => r.isSelected)
  let selectedSize := (selectedItems.map (fun r => r.size)).sum
  if selectedItems.length = 0 then
    { store := AppStore.addNotification fresh
        { type := NotifType.warning
          title := "No Items Selected"
          message := MsgText.lit "Please select items to clean up" } s
      progress := p
      calls := [] }
  else
    let s1 := AppStore.setIsCleaning true s
    -- try block: restore-point creation, guarded by settings and dry-run
    let restoreStep :
        AppState × List EngineCall × Option (Option String) :=
      if s.settings.createRestorePoints && !s.isDryRun then
        match restoreRes with
        | Except.ok rp =>
            (AppStore.addRestorePoint rp s1, [EngineCall.createRestorePointCall], none)
        | Except.error e => (s1, [EngineCall.createRestorePointCall], some e)
      else (s1, [], none)
    match restoreStep with
    | (s2, calls1, some e) =>
        -- catch, then finally
        { store := AppStore.setIsCleaning false
            (AppStore.addNotification fresh (errorNotification e) s2)
          progress := none
          calls := calls1 }
    | (s2, calls1, none) =>
        match cleanRes with
        | Except.error e =>
            { store := AppStore.setIsCleaning false
                (AppStore.addNotification fresh (errorNotification e) s2)
              progress := none
              calls := calls1 ++ [EngineCall.performCleanupCall] }
        | Except.ok session =>
            let s3 := AppStore.setCurrentSession (some session) s2
            let s4 := AppStore.deselectAllResults s3
            let s5 := AppStore.addNotification fresh
              (successNotification s.isDryRun selectedSize selectedItems.length session) s4
            { store := AppStore.setIsCleaning false s5
              progress := none
              calls := calls1 ++ [EngineCall.performCleanupCall] }

end UseCleanup

namespace Duplicates

/-- The comparator of smartSelect (src/components/views/Duplicates.tsx):
ascending by modification time. -/
def modLE (a b : DuplicateFile) : Prop := a.modified ≤ b.modified

instance : DecidableRel modLE := fun a b => inferInstanceAs (Decidable (a.modified ≤ b.modified))

instance : IsTotal DuplicateFile modLE := ⟨fun a b => Int.le_total a.modified b.modified⟩

instance : IsTrans DuplicateFile modLE := ⟨fun _ _ _ h h2 => Int.le_trans h h2⟩

/-- Smart-select strategy (src/components/views/Duplicates.tsx). -/
inductive Strategy where
  | newest
  | oldest
deriving DecidableEq

/-- One group of the smartSelect map: sort the files by modification time
(JS Array.sort is stable, modelled by insertion sort), keep sorted[0] for
strategy oldest and sorted[length-1] for newest, and mark every file whose
id differs from the keep-candidate selected, the keep-candidate unselected.
The none branch is unreachable for a non-empty member list (in JS,
sorted[0] of an empty array is undefined and toKeep.id throws). -/
def smartSelectGroup (strategy : Strategy) (group : DuplicateGroup) : DuplicateGroup :=
  let sorted := group.files.insertionSort modLE
  let toKeep := match strategy with
    | Strategy.oldest => sorted.head?
    | Strategy.newest => sorted.getLast?
  match toKeep with
  | none => group
  | some keep =>
      { group with files := group.files.map fun f =>
          { f with isSelected := f.id != keep.id } }

/-- smartSelect from src/components/views/Duplicates.tsx: apply the group
transformation to every duplicate group and store the result. -/
def smartSelect (strategy : Strategy) (s : AppState) : AppState :=
  AppStore.setDuplicates (s.duplicates.map (smartSelectGroup strategy)) s

end Duplicates

namespace UseScanner

/-- The category to label/icon table of useScanner (src/hooks/useScanner.ts). -/
def categoryLabels : CleanupCategory → String × String
  | CleanupCategory.system_cache => ("System Cache", "database")
  | CleanupCategory.browser_cache => ("Browser Cache", "globe")
  | CleanupCategory.temp_files => ("Temporary Files", "file-x")
  | CleanupCategory.log_files => ("Log Files", "file-text")
  | CleanupCategory.thumbnails => ("Thumbnails", "image")
  | CleanupCategory.duplicates => ("Duplicates", "copy")
  | CleanupCategory.large_files => ("Large Files", "hard-drive")
  | CleanupCategory.old_files => ("Old Files", "clock")
  | CleanupCategory.trash => ("Trash", "trash-2")
  | CleanupCategory.downloads => ("Downloads", "download")

/-- One step of the statsMap accumulation: Map.get-or-default then Map.set.
A JS Map keeps first-insertion key order: setting an existing key updates
in place, a new key is appended at the end. -/
def upsert (m : List (CleanupCategory × Nat × Nat)) (c : CleanupCategory) (sz : Nat) :
    List (CleanupCategory × Nat × Nat) :=
  match m with
  | [] => [(c, 1, sz)]
  | (c0, n, s) :: rest =>
      if c0 = c then (c0, n + 1, s + sz) :: rest
      else (c0, n, s) :: upsert rest c sz

/-- The statsMap built by the onScanComplete handler of useScanner:
fold the result list, counting entries and summing sizes per category. -/
def statsMap (results : List ScanResult) : List (CleanupCategory × Nat × Nat) :=
  results.foldl (fun m r => upsert m r.category r.size) []

/-- The category stats computed by the onScanComplete handler: the statsMap
entries decorated with label and icon from categoryLabels. -/
def computeCategoryStats (results : List ScanResult) : List CategoryStats :=
  (statsMap results).map fun e =>
    { category := e.1
      count := e.2.1
      size := e.2.2
      label := (categoryLabels e.1).1
      icon := (categoryLabels e.1).2 }

/-- The onScanComplete handler of useScanner (src/hooks/useScanner.ts):
store the results, clear the scanning flag and progress, store the
recomputed category stats, and emit the completion notification. -/
def onScanComplete (fresh : String × Nat) (results : List ScanResult)
    (s : AppState) : AppState :=
  let s1 := AppStore.setScanResults results s
  let s2 := AppStore.setIsScanning false s1
  let s3 := AppStore.setScanProgress none s2
  let s4 := AppStore.setCategoryStats (computeCategoryStats results) s3
  AppStore.addNotification fresh
    { type := NotifType.success
      title := "Scan Complete"
      message := MsgText.scanSummary results.length ((results.map (fun r => r.size)).sum) } s4

end UseScanner

/-- A sequence of addRestorePoint calls applied in order. -/
def applyRestorePoints (ps : List RestorePoint) (s : AppState) : AppState :=
  ps.foldl (fun st p => AppStore.addRestorePoint p st) s

/-- A sequence of addNotification calls applied in order; each call carries
its fresh identity/instant pair and its input. -/
def applyNotifications (calls : List ((String × Nat) × NotificationInput)) (s : AppState) : AppState :=
  calls.foldl (fun st c => AppStore.addNotification c.1 c.2 st) s

/-- The notification ledger is strictly newest-first: each entry's instant
is strictly later than its successor's. -/
def newestFirstB : List Notification → Bool
  | [] => true
  | [_] => true
  | a :: b :: t => (decide (b.timestamp < a.timestamp)) && newestFirstB (b :: t)

/-- Lookup of a category in the statsMap association list. -/
def findEntry (m : List (CleanupCategory × Nat × Nat)) (c : CleanupCategory) :
    Option (Nat × Nat) :=
  match m with
  | [] => none
  | (c0, n, s) :: rest => if c0 = c then some (n, s) else findEntry rest c

/-- Lookup with the Map.get-or-default reading: absent keys count as (0, 0). -/
def lookTotal (m : List (CleanupCategory × Nat × Nat)) (c : CleanupCategory) : Nat × Nat :=
  (findEntry m c).getD (0, 0)

/-- The number of scan results in a given category. -/
def countCat (results : List ScanResult) (c : CleanupCategory) : Nat :=
  (results.filter (fun r => r.category = c)).length

/-- The total byte size of the scan results in a given category. -/
def sizeCat (results : List ScanResult) (c : CleanupCategory) : Nat :=
  ((results.filter (fun r => r.category = c)).map (fun r => r.size)).sum

/-- A concrete scan result used in witnesses and scenarios. -/
def sampleScanResult (i : String) (cat : CleanupCategory) (sz : Nat) (sel : Bool) : ScanResult :=
  { id := i
    path := String.append "/tmp/" i
    name := i
    size := sz
    fileType := "temp"
    category := cat
    lastAccessed := "2024-01-01T00:00:00Z"
    lastModified := "2024-01-02T00:00:00Z"
    isSelected := sel
    risk := RiskLevel.safe
    description := "sample" }

/-- A concrete restore point used in witnesses. -/
def sampleRestorePoint : RestorePoint :=
  { id := "rp1"
    timestamp := "2024-01-03T00:00:00Z"
    description := "Cleanup session"
    itemCount := 1
    totalSize := 10
    items := [] }

/-- A concrete cleanup session used in witnesses. -/
def sampleSession : CleanupSession :=
  { id := "sess1"
    startTime := "2024-01-03T00:00:00Z"
    endTime := none
    filesScanned := 7
    filesDeleted := 5
    spaceFreed := 4242
    status := SessionStatus.completed
    items := [] }

/-- A concrete duplicate file used in witnesses. -/
def sampleDupFile (i : String) (t : Int) : DuplicateFile :=
  { id := i
    path := String.append "/home/u/" i
    name := i
    size := 64
    modified := t
    isOriginal := false
    isSelected := false }

/-- The duplicate group of the smart-select scenario: three files with
distinct modification times, the oldest second in member order. -/
def sampleGroup : DuplicateGroup :=
  { hash := "abc123"
    files := [sampleDupFile "f1" 20, sampleDupFile "f2" 5, sampleDupFile "f3" 30]
    totalSize := 192
    potentialSavings := 128 }

/-- A concrete store with empty collections and the default settings. -/
def sampleState : AppState :=
  { sidebarCollapsed := false
    currentView := "dashboard"
    isScanning := false
    isCleaning := false
    isDryRun := true
    scanResults := []
    duplicates := []
    startupItems := []
    largeFiles := []
    systemHealth := none
    currentSession := none
    restorePoints := []
    scanProgress := none
    notifications := []
    categoryStats := []
    settings := defaultSettings }

/-- The scan-result list of the category-stats scenario. -/
def sampleStatsResults : List ScanResult :=
  [sampleScanResult "a" CleanupCategory.temp_files 100 false,
   sampleScanResult "b" CleanupCategory.temp_files 50 false,
   sampleScanResult "c" CleanupCategory.log_files 30 false]

/-- A concrete notification used in witnesses. -/
def sampleNotification (i : String) (ts : Nat) : Notification :=
  { id := i
    type := NotifType.info
    title := "Scan Complete"
    message := MsgText.lit "done"
    timestamp := ts
    read := false }

/-- A concrete store holding one notification with instant 5. -/
def notifState : AppState :=
  { sampleState with notifications := [sampleNotification "n1" 5] }

/-- A concrete store whose restore-point ledger sits exactly at its cap. -/
def cappedState : AppState :=
  { sampleState with
    restorePoints := [sampleRestorePoint]
    settings := { defaultSettings with maxRestorePoints := 1 } }

/-- A concrete store with two selected scan results of 100 and 200 bytes. -/
def selectedState : AppState :=
  { sampleState with
    scanResults :=
      [sampleScanResult "a" CleanupCategory.temp_files 100 true,
       sampleScanResult "b" CleanupCategory.log_files 200 true,
       sampleScanResult "c" CleanupCategory.trash 40 false] }

/-- The selected store switched to a real (non-dry) run. -/
def realRunState : AppState :=
  { selectedState with isDryRun := false }

/-- C7: reset clears scan results, duplicates, large files, the current
session, scan progress and both the scanning and cleaning flags, and leaves
settings, the restore-point ledger and the notification ledger exactly
unchanged. -/
theorem reset_clears_and_frames (s : AppState) :
    (AppStore.reset s).scanResults = [] ∧
    (AppStore.reset s).duplicates = [] ∧
    (AppStore.reset s).largeFiles = [] ∧
    (AppStore.reset s).currentSession = none ∧
    (AppStore.reset s).scanProgress = none ∧
    (AppStore.reset s).isScanning = false ∧
    (AppStore.reset s).isCleaning = false ∧
    (AppStore.reset s).settings = s.settings ∧
    (AppStore.reset s).restorePoints = s.restorePoints ∧
    (AppStore.reset s).notifications = s.notifications :=
  ⟨rfl, rfl, rfl, rfl, rfl, rfl, rfl, rfl, rfl, rfl⟩

/-- C10: clearNotifications empties the notification ledger and leaves every
other store field unchanged. -/
theorem clearNotifications_frames (s : AppState) :
    (AppStore.clearNotifications s).notifications = [] ∧
    (AppStore.clearNotifications s).sidebarCollapsed = s.sidebarCollapsed ∧
    (AppStore.clearNotifications s).currentView = s.currentView ∧
    (AppStore.clearNotifications s).isScanning = s.isScanning ∧
    (AppStore.clearNotifications s).isCleaning = s.isCleaning ∧
    (AppStore.clearNotifications s).isDryRun = s.isDryRun ∧
    (AppStore.clearNotifications s).scanResults = s.scanResults ∧
    (AppStore.clearNotifications s).duplicates = s.duplicates ∧
    (AppStore.clearNotifications s).startupItems = s.startupItems ∧
    (AppStore.clearNotifications s).largeFiles = s.largeFiles ∧
    (AppStore.clearNotifications s).systemHealth = s.systemHealth ∧
    (AppStore.clearNotifications s).currentSession = s.currentSession ∧
    (AppStore.clearNotifications s).restorePoints = s.restorePoints ∧
    (AppStore.clearNotifications s).scanProgress = s.scanProgress ∧
    (AppStore.clearNotifications s).categoryStats = s.categoryStats ∧
    (AppStore.clearNotifications s).settings = s.settings :=
  ⟨rfl, rfl, rfl, rfl, rfl, rfl, rfl, rfl, rfl, rfl, rfl, rfl, rfl, rfl, rfl, rfl⟩

lemma addRestorePoint_settings (p : RestorePoint) (s : AppState) :
    (AppStore.addRestorePoint p s).settings = s.settings := by
  simp only [AppStore.addRestorePoint]
  split <;> rfl

lemma addRestorePoint_length (p : RestorePoint) (s : AppState)
    (h : s.restorePoints.length ≤ s.settings.maxRestorePoints) :
    (AppStore.addRestorePoint p s).restorePoints.length ≤ s.settings.maxRestorePoints := by
  simp only [AppStore.addRestorePoint]
  split
  · simp only [List.length_dropLast, List.length_cons]
    omega
  · next hle =>
    simp only [List.length_cons, gt_iff_lt, not_lt] at hle ⊢
    omega

lemma applyRestorePoints_length (ps : List RestorePoint) (s : AppState)
    (h : s.restorePoints.length ≤ s.settings.maxRestorePoints) :
    (applyRestorePoints ps s).restorePoints.length ≤ s.settings.maxRestorePoints := by
  induction ps generalizing s with
  | nil => exact h
  | cons p ps ih =>
    have hset := addRestorePoint_settings p s
    have hstep := addRestorePoint_length p s h
    have hrec := ih (AppStore.addRestorePoint p s) (by rw [hset]; exact hstep)
    rw [hset] at hrec
    simpa only [applyRestorePoints, List.foldl_cons] using hrec

/-- C3: starting from an empty ledger, any sequence of addRestorePoint calls
keeps the ledger length at or below settings.maxRestorePoints; a call that
would exceed the cap prepends the new point and evicts exactly the oldest
(last) entry, and a call that would not simply prepends. -/
theorem addRestorePoint_cap_eviction :
    (∀ (s : AppState) (ps : List RestorePoint), s.restorePoints = [] →
        (applyRestorePoints ps s).restorePoints.length ≤ s.settings.maxRestorePoints) ∧
    (∀ (s : AppState) (p : RestorePoint),
        s.restorePoints.length + 1 > s.settings.maxRestorePoints →
        (AppStore.addRestorePoint p s).restorePoints = (p :: s.restorePoints).dropLast) ∧
    (∀ (s : AppState) (p : RestorePoint), s.restorePoints ≠ [] →
        s.restorePoints.length + 1 > s.settings.maxRestorePoints →
        (AppStore.addRestorePoint p s).restorePoints = p :: s.restorePoints.dropLast) ∧
    (∀ (s : AppState) (p : RestorePoint),
        s.restorePoints.length + 1 ≤ s.settings.maxRestorePoints →
        (AppStore.addRestorePoint p s).restorePoints = p :: s.restorePoints) := by
  have hevict : ∀ (s : AppState) (p : RestorePoint),
      s.restorePoints.length + 1 > s.settings.maxRestorePoints →
      (AppStore.addRestorePoint p s).restorePoints = (p :: s.restorePoints).dropLast := by
    intro s p h
    simp only [AppStore.addRestorePoint]
    rw [if_pos]
    simpa only [List.length_cons, gt_iff_lt] using h
  refine ⟨?_, hevict, ?_, ?_⟩
  · intro s ps h
    exact applyRestorePoints_length ps s (by rw [h]; exact Nat.zero_le _)
  · intro s p hne h
    rw [hevict s p h]
    cases hrp : s.restorePoints with
    | nil => exact absurd hrp hne
    | cons a t => simp [List.dropLast]
  · intro s p h
    simp only [AppStore.addRestorePoint]
    rw [if_neg]
    simp only [List.length_cons, gt_iff_lt, not_lt]
    omega

/-- Witness for C3 at concrete inputs: two insertions into the empty default
store stay within the cap of 10; at a store whose ledger of one point sits at
a cap of one, a further insertion prepends and evicts the old point; below
the cap an insertion simply prepends. -/
theorem addRestorePoint_cap_eviction_witness :
    (applyRestorePoints [sampleRestorePoint, sampleRestorePoint] sampleState).restorePoints.length
        ≤ sampleState.settings.maxRestorePoints ∧
    (AppStore.addRestorePoint sampleRestorePoint cappedState).restorePoints
        = sampleRestorePoint :: cappedState.restorePoints.dropLast ∧
    (AppStore.addRestorePoint sampleRestorePoint sampleState).restorePoints
        = [sampleRestorePoint] :=
  ⟨addRestorePoint_cap_eviction.1 sampleState [sampleRestorePoint, sampleRestorePoint] rfl,
   addRestorePoint_cap_eviction.2.2.1 cappedState sampleRestorePoint (by decide) (by decide),
   addRestorePoint_cap_eviction.2.2.2 sampleState sampleRestorePoint (by decide)⟩

/-- C9: the three selection mutations preserve the length and order of the
scan-result list; pointwise, toggleResultSelection rewrites only the
isSelected flag of entries whose id equals the argument (leaving every other
field intact), selectAllResults sets the flag on the matching entries
(all of them when no category filter is given), and deselectAllResults
clears the flag on every entry. -/
theorem selection_mutations_frame (s : AppState) (id : String)
    (cat : Option CleanupCategory) (i : Nat) (r : ScanResult)
    (h : s.scanResults[i]? = some r) :
    (AppStore.toggleResultSelection id s).scanResults.length = s.scanResults.length ∧
    (AppStore.selectAllResults cat s).scanResults.length = s.scanResults.length ∧
    (AppStore.deselectAllResults s).scanResults.length = s.scanResults.length ∧
    (AppStore.toggleResultSelection id s).scanResults[i]? =
      some (if r.id = id then { r with isSelected := !r.isSelected } else r) ∧
    (AppStore.selectAllResults cat s).scanResults[i]? =
      some (match cat with
        | some c => if r.category = c then { r with isSelected := true } else r
        | none => { r with isSelected := true }) ∧
    (AppStore.deselectAllResults s).scanResults[i]? = some { r with isSelected := false } := by
  refine ⟨?_, ?_, ?_, ?_, ?_, ?_⟩
  · simp [AppStore.toggleResultSelection]
  · simp [AppStore.selectAllResults]
  · simp [AppStore.deselectAllResults]
  · simp [AppStore.toggleResultSelection, List.getElem?_map, h]
  · simp only [AppStore.selectAllResults, List.getElem?_map, h, Option.map_some]
    cases cat <;> rfl
  · simp [AppStore.deselectAllResults, List.getElem?_map, h]

/-- Witness for C9 at a concrete store of three results: the middle result
is toggled when its id is named, selected by its category filter, and
cleared by deselect, with every other field untouched. -/
theorem selection_mutations_frame_witness :
    (AppStore.toggleResultSelection "b" selectedState).scanResults.length
        = selectedState.scanResults.length ∧
    (AppStore.toggleResultSelection "b" selectedState).scanResults[1]? =
      some { sampleScanResult "b" CleanupCategory.log_files 200 true with isSelected := false } ∧
    (AppStore.selectAllResults (some CleanupCategory.log_files) selectedState).scanResults[1]? =
      some { sampleScanResult "b" CleanupCategory.log_files 200 true with isSelected := true } ∧
    (AppStore.deselectAllResults selectedState).scanResults[1]? =
      some { sampleScanResult "b" CleanupCategory.log_files 200 true with isSelected := false } := by
  have hmem : selectedState.scanResults[1]? =
      some (sampleScanResult "b" CleanupCategory.log_files 200 true) := by decide
  have hth := selection_mutations_frame selectedState "b"
    (some CleanupCategory.log_files) 1 (sampleScanResult "b" CleanupCategory.log_files 200 true) hmem
  exact ⟨hth.1, hth.2.2.2.1.trans (by decide), hth.2.2.2.2.1.trans (by decide),
         hth.2.2.2.2.2.trans (by decide)⟩

/-- C5: performCleanup invoked with an empty selection issues no engine call,
leaves the local progress and every store field other than the notification
ledger unchanged (in particular isCleaning keeps its value, so it remains
false), and prepends exactly one warning notification titled
No Items Selected. -/
theorem performCleanup_empty_selection (fresh : String × Nat)
    (restoreRes : Except (Option String) RestorePoint)
    (cleanRes : Except (Option String) CleanupSession)
    (s : AppState) (p : Option CleanupProgress)
    (h : s.scanResults.filter (fun r => r.isSelected) = []) :
    (UseCleanup.performCleanup fresh restoreRes cleanRes s p).calls = [] ∧
    (UseCleanup.performCleanup fresh restoreRes cleanRes s p).progress = p ∧
    (UseCleanup.performCleanup fresh restoreRes cleanRes s p).store.notifications =
      ({ id := fresh.1, type := NotifType.warning, title := "No Items Selected",
         message := MsgText.lit "Please select items to clean up",
         timestamp := fresh.2, read := false } :: s.notifications).take 50 ∧
    (UseCleanup.performCleanup fresh restoreRes cleanRes s p).store.isCleaning = s.isCleaning ∧
    (UseCleanup.performCleanup fresh restoreRes cleanRes s p).store.scanResults = s.scanResults ∧
    (UseCleanup.performCleanup fresh restoreRes cleanRes s p).store.restorePoints = s.restorePoints ∧
    (UseCleanup.performCleanup fresh restoreRes cleanRes s p).store.currentSession = s.currentSession ∧
    (UseCleanup.performCleanup fresh restoreRes cleanRes s p).store.settings = s.settings ∧
    (UseCleanup.performCleanup fresh restoreRes cleanRes s p).store.isScanning = s.isScanning ∧
    (UseCleanup.performCleanup fresh restoreRes cleanRes s p).store.isDryRun = s.isDryRun ∧
    (UseCleanup.performCleanup fresh restoreRes cleanRes s p).store.duplicates = s.duplicates ∧
    (UseCleanup.performCleanup fresh restoreRes cleanRes s p).store.scanProgress = s.scanProgress ∧
    (UseCleanup.performCleanup fresh restoreRes cleanRes s p).store.categoryStats = s.categoryStats := by
  simp [UseCleanup.performCleanup, h, AppStore.addNotification]

/-- Witness for C5: at a concrete store with no selected result, the run
issues no engine call and prepends only the warning notification. -/
theorem performCleanup_empty_selection_witness :
    (UseCleanup.performCleanup ("id9", 9) (Except.ok sampleRestorePoint)
        (Except.ok sampleSession) sampleState none).calls = [] ∧
    (UseCleanup.performCleanup ("id9", 9) (Except.ok sampleRestorePoint)
        (Except.ok sampleSession) sampleState none).store.notifications =
      [{ id := "id9", type := NotifType.warning, title := "No Items Selected",
         message := MsgText.lit "Please select items to clean up",
         timestamp := 9, read := false }] := by
  have hth := performCleanup_empty_selection ("id9", 9) (Except.ok sampleRestorePoint)
    (Except.ok sampleSession) sampleState none (by decide)
  exact ⟨hth.1, hth.2.2.1.trans (by decide)⟩

lemma addNotification_notifications (fresh : String × Nat) (n : NotificationInput) (s : AppState) :
    (AppStore.addNotification fresh n s).notifications =
      ({ id := fresh.1, type := n.type, title := n.title, message := n.message,
         timestamp := fresh.2, read := false } :: s.notifications).take 50 := rfl

lemma addNotification_length (fresh : String × Nat) (n : NotificationInput) (s : AppState) :
    (AppStore.addNotification fresh n s).notifications.length ≤ 50 := by
  rw [addNotification_notifications]
  simp

lemma applyNotifications_length (calls : List ((String × Nat) × NotificationInput)) (s : AppState)
    (h : s.notifications.length ≤ 50) :
    (applyNotifications calls s).notifications.length ≤ 50 := by
  induction calls generalizing s with
  | nil => exact h
  | cons c cs ih =>
    have hrec := ih (AppStore.addNotification c.1 c.2 s) (addNotification_length c.1 c.2 s)
    simpa only [applyNotifications, List.foldl_cons] using hrec

lemma newestFirstB_take :
    ∀ (l : List Notification) (n : Nat), newestFirstB l = true → newestFirstB (l.take n) = true
  | [], n, _ => by cases n <;> simp [newestFirstB]
  | [a], n, _ => by cases n <;> simp [newestFirstB]
  | a :: b :: t, 0, _ => by simp [newestFirstB]
  | a :: b :: t, 1, _ => by simp [newestFirstB]
  | a :: b :: t, (n + 2), h => by
    have h1 : decide (b.timestamp < a.timestamp) = true ∧ newestFirstB (b :: t) = true := by
      simpa only [newestFirstB, Bool.and_eq_true] using h
    have ih := newestFirstB_take (b :: t) (n + 1) h1.2
    simp only [List.take] at ih ⊢
    simp only [newestFirstB, Bool.and_eq_true]
    exact ⟨h1.1, ih⟩

lemma newestFirstB_cons (x : Notification) (l : List Notification)
    (hts : ∀ m ∈ l, m.timestamp < x.timestamp) (h : newestFirstB l = true) :
    newestFirstB (x :: l) = true := by
  cases l with
  | nil => rfl
  | cons m t =>
    simp only [newestFirstB, Bool.and_eq_true]
    exact ⟨decide_eq_true (hts m (List.mem_cons_self m t)), h⟩

/-- C4: from any ledger of length at most 50, a sequence of addNotification
calls never pushes the length above 50; each call prepends the fresh entry
with read set to false and truncates to the 50 most recent; a call whose
instant is later than every ledger entry keeps the ledger strictly
newest-first; and a whole sequence of calls with increasing fresh instants,
all later than the existing entries, keeps the ledger strictly
newest-first. -/
theorem addNotification_cap_order :
    (∀ (s : AppState) (calls : List ((String × Nat) × NotificationInput)),
        s.notifications.length ≤ 50 →
        (applyNotifications calls s).notifications.length ≤ 50) ∧
    (∀ (fresh : String × Nat) (n : NotificationInput) (s : AppState),
        (AppStore.addNotification fresh n s).notifications =
          ({ id := fresh.1, type := n.type, title := n.title, message := n.message,
             timestamp := fresh.2, read := false } :: s.notifications).take 50) ∧
    (∀ (fresh : String × Nat) (n : NotificationInput) (s : AppState),
        newestFirstB s.notifications = true →
        (∀ m ∈ s.notifications, m.timestamp < fresh.2) →
        newestFirstB (AppStore.addNotification fresh n s).notifications = true) ∧
    (∀ (s : AppState) (calls : List ((String × Nat) × NotificationInput)),
        newestFirstB s.notifications = true →
        (∀ m ∈ s.notifications, ∀ c ∈ calls, m.timestamp < c.1.2) →
        calls.Pairwise (fun a b => a.1.2 < b.1.2) →
        newestFirstB (applyNotifications calls s).notifications = true) := by
  have hsingle : ∀ (fresh : String × Nat) (n : NotificationInput) (s : AppState),
      newestFirstB s.notifications = true →
      (∀ m ∈ s.notifications, m.timestamp < fresh.2) →
      newestFirstB (AppStore.addNotification fresh n s).notifications = true := by
    intro fresh n s horder hts
    rw [addNotification_notifications]
    exact newestFirstB_take _ 50 (newestFirstB_cons _ _ hts horder)
  refine ⟨fun s calls h => applyNotifications_length calls s h,
          fun fresh n s => addNotification_notifications fresh n s,
          hsingle, ?_⟩
  intro s calls
  induction calls generalizing s with
  | nil => exact fun horder _ _ => horder
  | cons c cs ih =>
    intro horder hts hpw
    have hstep := hsingle c.1 c.2 s horder
      (fun m hm => hts m hm c (List.mem_cons_self c cs))
    have hts2 : ∀ m ∈ (AppStore.addNotification c.1 c.2 s).notifications,
        ∀ c2 ∈ cs, m.timestamp < c2.1.2 := by
      intro m hm c2 hc2
      rw [addNotification_notifications] at hm
      rcases List.mem_cons.mp (List.mem_of_mem_take hm) with hm2 | hm2
      · rw [hm2]
        exact (List.pairwise_cons.mp hpw).1 c2 hc2
      · exact hts m hm2 c2 (List.mem_cons_of_mem c hc2)
    have hrec := ih (AppStore.addNotification c.1 c.2 s) hstep hts2
      (List.pairwise_cons.mp hpw).2
    simpa only [applyNotifications, List.foldl_cons] using hrec

/-- Witness for C4 at concrete inputs: two calls on a one-entry ledger keep
the length within 50; a concrete call prepends with read false and
truncates; a call with a later instant keeps the ledger newest-first. -/
theorem addNotification_cap_order_witness :
    (applyNotifications
        [(("id2", 10), { type := NotifType.success, title := "A", message := MsgText.lit "a" }),
         (("id3", 11), { type := NotifType.error, title := "B", message := MsgText.lit "b" })]
        notifState).notifications.length ≤ 50 ∧
    (AppStore.addNotification ("id2", 10)
        { type := NotifType.success, title := "A", message := MsgText.lit "a" }
        notifState).notifications =
      ({ id := "id2", type := NotifType.success, title := "A", message := MsgText.lit "a",
         timestamp := 10, read := false } :: notifState.notifications).take 50 ∧
    newestFirstB (AppStore.addNotification ("id2", 10)
        { type := NotifType.success, title := "A", message := MsgText.lit "a" }
        notifState).notifications = true ∧
    newestFirstB (applyNotifications
        [(("id2", 10), { type := NotifType.success, title := "A", message := MsgText.lit "a" }),
         (("id3", 11), { type := NotifType.error, title := "B", message := MsgText.lit "b" })]
        notifState).notifications = true :=
  ⟨addNotification_cap_order.1 notifState _ (by decide),
   addNotification_cap_order.2.1 ("id2", 10) _ notifState,
   addNotification_cap_order.2.2.1 ("id2", 10) _ notifState (by decide) (by decide),
   addNotification_cap_order.2.2.2 notifState _ (by decide) (by decide) (by decide)⟩

/-- C2: a cleanup run started with a non-empty selection in dry-run mode
never issues the restore-point engine call and leaves the restore-point
ledger unchanged, even when settings.createRestorePoints is true; and when
the engine delivers a session, the success notification message carries the
byte total and item count of the pre-run selection snapshot, independent of
anything in the returned session. -/
theorem performCleanup_dry_run (fresh : String × Nat)
    (restoreRes : Except (Option String) RestorePoint)
    (cleanRes : Except (Option String) CleanupSession)
    (s : AppState) (p : Option CleanupProgress)
    (hsel : s.scanResults.filter (fun r => r.isSelected) ≠ [])
    (hdry : s.isDryRun = true) :
    EngineCall.createRestorePointCall ∉
      (UseCleanup.performCleanup fresh restoreRes cleanRes s p).calls ∧
    (UseCleanup.performCleanup fresh restoreRes cleanRes s p).store.restorePoints
      = s.restorePoints ∧
    (∀ session : CleanupSession, cleanRes = Except.ok session →
      (UseCleanup.performCleanup fresh restoreRes cleanRes s p).store.notifications.head? =
        some { id := fresh.1, type := NotifType.success, title := "Dry Run Complete",
               message := MsgText.dryRunSummary
                 ((s.scanResults.filter (fun r => r.isSelected)).map (fun r => r.size)).sum
                 (s.scanResults.filter (fun r => r.isSelected)).length,
               timestamp := fresh.2, read := false }) := by
  have hlen : ¬ ((s.scanResults.filter (fun r => r.isSelected)).length = 0) := by
    simpa [List.length_eq_zero] using hsel
  have hcond : (s.settings.createRestorePoints && !s.isDryRun) = false := by
    rw [hdry]; simp
  cases cleanRes with
  | ok session =>
    refine ⟨?_, ?_, ?_⟩
    · simp [UseCleanup.performCleanup, hlen, hcond]
    · simp [UseCleanup.performCleanup, hlen, hcond, AppStore.addNotification,
            AppStore.deselectAllResults, AppStore.setCurrentSession, AppStore.setIsCleaning]
    · intro session2 hs2
      have : session2 = session := by injection hs2 with h2; exact h2.symm
      subst this
      simp [UseCleanup.performCleanup, hlen, hcond, AppStore.addNotification,
            AppStore.deselectAllResults, AppStore.setCurrentSession, AppStore.setIsCleaning,
            UseCleanup.successNotification, hdry, List.take_succ_cons]
  | error e =>
    refine ⟨?_, ?_, ?_⟩
    · simp [UseCleanup.performCleanup, hlen, hcond]
    · simp [UseCleanup.performCleanup, hlen, hcond, AppStore.addNotification,
            AppStore.setIsCleaning]
    · intro session2 hs2
      exact absurd hs2 (by simp)

/-- Witness for C2: dry-run cleanup at a store with two selected items of
100 and 200 bytes creates no restore point and reports 300 bytes from 2
items out of the snapshot, not the 4242 bytes or 5 files of the returned
session. -/
theorem performCleanup_dry_run_witness :
    EngineCall.createRestorePointCall ∉
      (UseCleanup.performCleanup ("id7", 7) (Except.ok sampleRestorePoint)
        (Except.ok sampleSession) selectedState none).calls ∧
    (UseCleanup.performCleanup ("id7", 7) (Except.ok sampleRestorePoint)
        (Except.ok sampleSession) selectedState none).store.restorePoints = [] ∧
    (UseCleanup.performCleanup ("id7", 7) (Except.ok sampleRestorePoint)
        (Except.ok sampleSession) selectedState none).store.notifications.head? =
      some { id := "id7", type := NotifType.success, title := "Dry Run Complete",
             message := MsgText.dryRunSummary 300 2, timestamp := 7, read := false } := by
  have hth := performCleanup_dry_run ("id7", 7) (Except.ok sampleRestorePoint)
    (Except.ok sampleSession) selectedState none (by decide) (by decide)
  exact ⟨hth.1, hth.2.1.trans (by decide),
         (hth.2.2 sampleSession rfl).trans (by decide)⟩

/-- C8: a cleanup run with a non-empty selection ends, on every oracle
outcome (restore-point failure, engine rejection, or success), with
isCleaning false and the local progress cleared to null; the run is a total
function of the oracle outcomes (no rejection escapes), a restore-point
failure aborts before the cleanup engine call and yields exactly the error
notification Cleanup Failed, and an engine rejection likewise yields that
error notification. -/
theorem performCleanup_teardown (fresh : String × Nat)
    (restoreRes : Except (Option String) RestorePoint)
    (cleanRes : Except (Option String) CleanupSession)
    (s : AppState) (p : Option CleanupProgress)
    (hsel : s.scanResults.filter (fun r => r.isSelected) ≠ []) :
    (UseCleanup.performCleanup fresh restoreRes cleanRes s p).store.isCleaning = false ∧
    (UseCleanup.performCleanup fresh restoreRes cleanRes s p).progress = none ∧
    (∀ e, (s.settings.createRestorePoints && !s.isDryRun) = true →
      restoreRes = Except.error e →
      (UseCleanup.performCleanup fresh restoreRes cleanRes s p).store.notifications.head? =
        some { id := fresh.1, type := NotifType.error, title := "Cleanup Failed",
               message := MsgText.lit (match e with
                 | some m => m
                 | none => "Unknown error occurred"),
               timestamp := fresh.2, read := false } ∧
      (UseCleanup.performCleanup fresh restoreRes cleanRes s p).calls =
        [EngineCall.createRestorePointCall]) ∧
    (∀ e, cleanRes = Except.error e →
      ((s.settings.createRestorePoints && !s.isDryRun) = true →
        ∃ rp, restoreRes = Except.ok rp) →
      (UseCleanup.performCleanup fresh restoreRes cleanRes s p).store.notifications.head? =
        some { id := fresh.1, type := NotifType.error, title := "Cleanup Failed",
               message := MsgText.lit (match e with
                 | some m => m
                 | none => "Unknown error occurred"),
               timestamp := fresh.2, read := false }) := by
  have hlen : ¬ ((s.scanResults.filter (fun r => r.isSelected)).length = 0) := by
    simpa [List.length_eq_zero] using hsel
  cases hcond : (s.settings.createRestorePoints && !s.isDryRun) with
  | false =>
    cases cleanRes with
    | ok session =>
      refine ⟨?_, ?_, ?_, ?_⟩
      · simp [UseCleanup.performCleanup, hlen, hcond, AppStore.setIsCleaning]
      · simp [UseCleanup.performCleanup, hlen, hcond]
      · intro e hc; exact absurd hc (by simp [hcond])
      · intro e hc; exact absurd hc (by simp)
    | error e0 =>
      refine ⟨?_, ?_, ?_, ?_⟩
      · simp [UseCleanup.performCleanup, hlen, hcond, AppStore.setIsCleaning]
      · simp [UseCleanup.performCleanup, hlen, hcond]
      · intro e hc; exact absurd hc (by simp [hcond])
      · intro e hc _
        have he : e = e0 := by injection hc with h2; exact h2.symm
        subst he
        simp [UseCleanup.performCleanup, hlen, hcond, AppStore.addNotification,
              AppStore.setIsCleaning, UseCleanup.errorNotification, List.take_succ_cons]
  | true =>
    cases restoreRes with
    | ok rp =>
      cases cleanRes with
      | ok session =>
        refine ⟨?_, ?_, ?_, ?_⟩
        · simp [UseCleanup.performCleanup, hlen, hcond, AppStore.setIsCleaning]
        · simp [UseCleanup.performCleanup, hlen, hcond]
        · intro e _ hc; exact absurd hc (by simp)
        · intro e hc; exact absurd hc (by simp)
      | error e0 =>
        refine ⟨?_, ?_, ?_, ?_⟩
        · simp [UseCleanup.performCleanup, hlen, hcond, AppStore.setIsCleaning]
        · simp [UseCleanup.performCleanup, hlen, hcond]
        · intro e _ hc; exact absurd hc (by simp)
        · intro e hc _
          have he : e = e0 := by injection hc with h2; exact h2.symm
          subst he
          simp [UseCleanup.performCleanup, hlen, hcond, AppStore.addNotification,
                AppStore.addRestorePoint, AppStore.setIsCleaning,
                UseCleanup.errorNotification, List.take_succ_cons]
    | error e0 =>
      refine ⟨?_, ?_, ?_, ?_⟩
      · simp [UseCleanup.performCleanup, hlen, hcond, AppStore.setIsCleaning]
      · simp [UseCleanup.performCleanup, hlen, hcond]
      · intro e _ hc
        have he : e = e0 := by injection hc with h2; exact h2.symm
        subst he
        constructor
        · simp [UseCleanup.performCleanup, hlen, hcond, AppStore.addNotification,
                AppStore.setIsCleaning, UseCleanup.errorNotification, List.take_succ_cons]
        · simp [UseCleanup.performCleanup, hlen, hcond]
      · intro e _ hre
        rcases hre rfl with ⟨rp, hrp⟩
        exact absurd hrp (by simp)

/-- Witness for C8: with both engine calls failing at a store with a
non-empty selection and restore points enabled for a real run, the run
still ends with isCleaning false, progress null, the Cleanup Failed error
notification, and only the restore-point call issued. -/
theorem performCleanup_teardown_witness :
    (UseCleanup.performCleanup ("id8", 8) (Except.error (some "disk full"))
        (Except.error none) realRunState none).store.isCleaning = false ∧
    (UseCleanup.performCleanup ("id8", 8) (Except.error (some "disk full"))
        (Except.error none) realRunState none).progress = none ∧
    (UseCleanup.performCleanup ("id8", 8) (Except.error (some "disk full"))
        (Except.error none) realRunState none).store.notifications.head? =
      some { id := "id8", type := NotifType.error, title := "Cleanup Failed",
             message := MsgText.lit "disk full", timestamp := 8, read := false } ∧
    (UseCleanup.performCleanup ("id8", 8) (Except.error (some "disk full"))
        (Except.error none) realRunState none).calls =
      [EngineCall.createRestorePointCall] := by
  have hth := performCleanup_teardown ("id8", 8) (Except.error (some "disk full"))
    (Except.error none) realRunState none (by decide)
  have hfail := hth.2.2.1 (some "disk full") (by decide) rfl
  exact ⟨hth.1, hth.2.1, hfail.1, hfail.2⟩

lemma findEntry_upsert_self (m : List (CleanupCategory × Nat × Nat))
    (c : CleanupCategory) (sz : Nat) :
    findEntry (UseScanner.upsert m c sz) c =
      some (match findEntry m c with
        | none => (1, sz)
        | some (n, s) => (n + 1, s + sz)) := by
  induction m with
  | nil => simp [UseScanner.upsert, findEntry]
  | cons e rest ih =>
    obtain ⟨c0, n, s0⟩ := e
    by_cases hc : c0 = c
    · subst hc
      simp [UseScanner.upsert, findEntry]
    · simp [UseScanner.upsert, findEntry, hc, ih]

lemma findEntry_upsert_other (m : List (CleanupCategory × Nat × Nat))
    (c c2 : CleanupCategory) (sz : Nat) (h : c2 ≠ c) :
    findEntry (UseScanner.upsert m c sz) c2 = findEntry m c2 := by
  induction m with
  | nil =>
    have hne : ¬ (c = c2) := fun he => h he.symm
    simp [UseScanner.upsert, findEntry, hne]
  | cons e rest ih =>
    obtain ⟨c0, n, s0⟩ := e
    by_cases hc : c0 = c
    · subst hc
      have hne : ¬ (c0 = c2) := fun he => h (he.symm)
      simp [UseScanner.upsert, findEntry, hne]
    · simp [UseScanner.upsert, findEntry, hc, ih]

lemma lookTotal_upsert_self (m : List (CleanupCategory × Nat × Nat))
    (c : CleanupCategory) (sz : Nat) :
    lookTotal (UseScanner.upsert m c sz) c =
      ((lookTotal m c).1 + 1, (lookTotal m c).2 + sz) := by
  rw [lookTotal, findEntry_upsert_self]
  cases hf : findEntry m c with
  | none => simp [lookTotal, hf]
  | some v =>
    obtain ⟨n, s0⟩ := v
    simp [lookTotal, hf]

lemma countCat_cons (r : ScanResult) (rs : List ScanResult) (c : CleanupCategory) :
    countCat (r :: rs) c = countCat rs c + (if r.category = c then 1 else 0) := by
  simp only [countCat, List.filter_cons]
  split
  · next h =>
    have : r.category = c := by simpa using h
    simp [this]
  · next h =>
    have : ¬ (r.category = c) := by simpa using h
    simp [this]

lemma sizeCat_cons (r : ScanResult) (rs : List ScanResult) (c : CleanupCategory) :
    sizeCat (r :: rs) c = sizeCat rs c + (if r.category = c then r.size else 0) := by
  simp only [sizeCat, List.filter_cons]
  split
  · next h =>
    have : r.category = c := by simpa using h
    simp [this, Nat.add_comm]
  · next h =>
    have : ¬ (r.category = c) := by simpa using h
    simp [this]

lemma lookTotal_statsFold (rs : List ScanResult) (m : List (CleanupCategory × Nat × Nat))
    (c : CleanupCategory) :
    lookTotal (rs.foldl (fun acc r => UseScanner.upsert acc r.category r.size) m) c =
      ((lookTotal m c).1 + countCat rs c, (lookTotal m c).2 + sizeCat rs c) := by
  induction rs generalizing m with
  | nil => simp [countCat, sizeCat]
  | cons r rs ih =>
    rw [List.foldl_cons, ih, countCat_cons, sizeCat_cons]
    by_cases hc : r.category = c
    · subst hc
      rw [lookTotal_upsert_self]
      simp [Nat.add_comm, Nat.add_assoc, Nat.add_left_comm]
    · have : lookTotal (UseScanner.upsert m r.category r.size) c = lookTotal m c := by
        rw [lookTotal, findEntry_upsert_other m r.category c r.size (fun he => hc he.symm), lookTotal]
      rw [this]
      simp [hc]

lemma findEntry_eq_none_iff (m : List (CleanupCategory × Nat × Nat)) (c : CleanupCategory) :
    findEntry m c = none ↔ c ∉ m.map (fun e => e.1) := by
  induction m with
  | nil => simp [findEntry]
  | cons e rest ih =>
    obtain ⟨c0, n, s0⟩ := e
    by_cases hc : c0 = c
    · subst hc
      simp [findEntry]
    · have hne : ¬ (c = c0) := fun he => hc he.symm
      simp [findEntry, hc, ih, hne]

lemma keys_upsert (m : List (CleanupCategory × Nat × Nat)) (c : CleanupCategory) (sz : Nat) :
    (UseScanner.upsert m c sz).map (fun e => e.1) =
      if (findEntry m c).isSome then m.map (fun e => e.1)
      else m.map (fun e => e.1) ++ [c] := by
  induction m with
  | nil => simp [UseScanner.upsert, findEntry]
  | cons e rest ih =>
    obtain ⟨c0, n, s0⟩ := e
    by_cases hc : c0 = c
    · subst hc
      simp [UseScanner.upsert, findEntry]
    · rw [show UseScanner.upsert ((c0, n, s0) :: rest) c sz
            = (c0, n, s0) :: UseScanner.upsert rest c sz from by simp [UseScanner.upsert, hc]]
      rw [List.map_cons, ih]
      rw [show findEntry ((c0, n, s0) :: rest) c = findEntry rest c from by
            simp [findEntry, hc]]
      split <;> simp

lemma keys_nodup_upsert (m : List (CleanupCategory × Nat × Nat)) (c : CleanupCategory) (sz : Nat)
    (h : (m.map (fun e => e.1)).Nodup) :
    ((UseScanner.upsert m c sz).map (fun e => e.1)).Nodup := by
  rw [keys_upsert]
  split
  · exact h
  · next hnone =>
    have hni : c ∉ m.map (fun e => e.1) := by
      rw [← findEntry_eq_none_iff]
      cases hf : findEntry m c with
      | none => rfl
      | some v => rw [hf] at hnone; simp at hnone
    simp [List.nodup_append, h, hni]

lemma keys_nodup_statsFold (rs : List ScanResult) (m : List (CleanupCategory × Nat × Nat))
    (h : (m.map (fun e => e.1)).Nodup) :
    (((rs.foldl (fun acc r => UseScanner.upsert acc r.category r.size) m)).map
        (fun e => e.1)).Nodup := by
  induction rs generalizing m with
  | nil => exact h
  | cons r rs ih =>
    rw [List.foldl_cons]
    exact ih _ (keys_nodup_upsert m r.category r.size h)

lemma findEntry_statsFold_ne_none (rs : List ScanResult)
    (m : List (CleanupCategory × Nat × Nat)) (c : CleanupCategory) :
    findEntry (rs.foldl (fun acc r => UseScanner.upsert acc r.category r.size) m) c ≠ none ↔
      (findEntry m c ≠ none ∨ ∃ r ∈ rs, r.category = c) := by
  induction rs generalizing m with
  | nil => simp
  | cons r rs ih =>
    rw [List.foldl_cons, ih]
    by_cases hc : c = r.category
    · subst hc
      rw [findEntry_upsert_self]
      constructor
      · intro _
        right
        exact ⟨r, List.mem_cons_self r rs, rfl⟩
      · intro _
        left
        simp
    · rw [findEntry_upsert_other m r.category c r.size hc]
      constructor
      · rintro (hne | ⟨r2, hr2, hc2⟩)
        · exact Or.inl hne
        · exact Or.inr ⟨r2, List.mem_cons_of_mem r hr2, hc2⟩
      · rintro (hne | ⟨r2, hr2, hc2⟩)
        · exact Or.inl hne
        · rcases List.mem_cons.mp hr2 with h2 | h2
          · subst h2
            exact absurd hc2.symm hc
          · exact Or.inr ⟨r2, h2, hc2⟩

lemma findEntry_of_mem (m : List (CleanupCategory × Nat × Nat))
    (h : (m.map (fun e => e.1)).Nodup) (e : CleanupCategory × Nat × Nat) (he : e ∈ m) :
    findEntry m e.1 = some e.2 := by
  induction m with
  | nil => cases he
  | cons e0 rest ih =>
    obtain ⟨c0, v0⟩ := e0
    rcases List.mem_cons.mp he with h2 | h2
    · subst h2
      simp [findEntry]
    · have hk : e.1 ∈ rest.map (fun x => x.1) := List.mem_map_of_mem _ h2
      have hc0 : ¬ (c0 = e.1) := by
        intro hcc
        subst hcc
        exact (List.nodup_cons.mp h).1 hk
      rw [findEntry, if_neg hc0]
      exact ih (List.nodup_cons.mp h).2 h2

/-- C6: the category stats computed on scan completion contain exactly one
entry per category present in the result list, whose count is the number of
results in that category, whose size is the sum of their byte sizes, and
whose label and icon come from the fixed category table; on the concrete
scenario of two temp_files results of 100 and 50 bytes and one log_files
result of 30 bytes the stats are precisely the two expected entries. -/
theorem categoryStats_correct (results : List ScanResult) :
    ((UseScanner.computeCategoryStats results).map (fun e => e.category)).Nodup ∧
    (∀ c : CleanupCategory,
        c ∈ (UseScanner.computeCategoryStats results).map (fun e => e.category) ↔
        ∃ r ∈ results, r.category = c) ∧
    (∀ e ∈ UseScanner.computeCategoryStats results,
        e.count = countCat results e.category ∧
        e.size = sizeCat results e.category ∧
        e.label = (UseScanner.categoryLabels e.category).1 ∧
        e.icon = (UseScanner.categoryLabels e.category).2) ∧
    UseScanner.computeCategoryStats sampleStatsResults =
      [{ category := CleanupCategory.temp_files, count := 2, size := 150,
         label := "Temporary Files", icon := "file-x" },
       { category := CleanupCategory.log_files, count := 1, size := 30,
         label := "Log Files", icon := "file-text" }] := by
  have hkeys : (UseScanner.computeCategoryStats results).map (fun e => e.category)
      = (UseScanner.statsMap results).map (fun e => e.1) := by
    simp [UseScanner.computeCategoryStats, List.map_map]
  have hnodup : ((UseScanner.statsMap results).map (fun e => e.1)).Nodup :=
    keys_nodup_statsFold results [] (by simp)
  refine ⟨?_, ?_, ?_, by decide⟩
  · rw [hkeys]
    exact hnodup
  · intro c
    rw [hkeys]
    have hne := findEntry_statsFold_ne_none results [] c
    rw [UseScanner.statsMap]
    constructor
    · intro hmem
      have hfind : findEntry (List.foldl (fun acc r => UseScanner.upsert acc r.category r.size) [] results) c ≠ none := by
        intro hnone
        rw [findEntry_eq_none_iff] at hnone
        exact hnone hmem
      rcases hne.mp hfind with hfe | hex
      · exact absurd rfl hfe
      · exact hex
    · intro hex
      have hfind : findEntry (List.foldl (fun acc r => UseScanner.upsert acc r.category r.size) [] results) c ≠ none :=
        hne.mpr (Or.inr hex)
      by_contra hni
      apply hfind
      rw [findEntry_eq_none_iff]
      exact hni
  · intro e hmem
    rw [UseScanner.computeCategoryStats] at hmem
    rcases List.mem_map.mp hmem with ⟨a, ha, hae⟩
    have hfe : findEntry (UseScanner.statsMap results) a.1 = some a.2 :=
      findEntry_of_mem _ hnodup a ha
    have hlook := lookTotal_statsFold results [] a.1
    rw [show (List.foldl (fun acc r => UseScanner.upsert acc r.category r.size) [] results)
          = UseScanner.statsMap results from rfl] at hlook
    rw [lookTotal, hfe] at hlook
    simp only [lookTotal, findEntry, Option.getD_some, Option.getD_none] at hlook
    have hc : a.2.1 = countCat results a.1 ∧ a.2.2 = sizeCat results a.1 := by
      have h1 := congrArg Prod.fst hlook
      have h2 := congrArg Prod.snd hlook
      simp at h1 h2
      exact ⟨h1, h2⟩
    subst hae
    exact ⟨hc.1, hc.2, rfl, rfl⟩

/-- Witness for C6 at the scenario input: the temp_files entry of the
computed stats carries count 2, size 150 and the fixed label and icon. -/
theorem categoryStats_correct_witness :
    ({ category := CleanupCategory.temp_files, count := 2, size := 150,
       label := "Temporary Files", icon := "file-x" } : CategoryStats).count
        = countCat sampleStatsResults CleanupCategory.temp_files ∧
    ({ category := CleanupCategory.temp_files, count := 2, size := 150,
       label := "Temporary Files", icon := "file-x" } : CategoryStats).size
        = sizeCat sampleStatsResults CleanupCategory.temp_files ∧
    ({ category := CleanupCategory.temp_files, count := 2, size := 150,
       label := "Temporary Files", icon := "file-x" } : CategoryStats).label
        = (UseScanner.categoryLabels CleanupCategory.temp_files).1 ∧
    ({ category := CleanupCategory.temp_files, count := 2, size := 150,
       label := "Temporary Files", icon := "file-x" } : CategoryStats).icon
        = (UseScanner.categoryLabels CleanupCategory.temp_files).2 :=
  (categoryStats_correct sampleStatsResults).2.2.1
    { category := CleanupCategory.temp_files, count := 2, size := 150,
      label := "Temporary Files", icon := "file-x" } (by decide)

lemma head_min (l : List DuplicateFile) (k : DuplicateFile)
    (hk : (l.insertionSort Duplicates.modLE).head? = some k) :
    k ∈ l ∧ ∀ f ∈ l, k.modified ≤ f.modified := by
  have hs := List.sorted_insertionSort Duplicates.modLE l
  cases hsl : l.insertionSort Duplicates.modLE with
  | nil => rw [hsl] at hk; cases hk
  | cons a t =>
    rw [hsl] at hk
    injection hk with hk
    subst hk
    rw [hsl] at hs
    constructor
    · have hmem : a ∈ l.insertionSort Duplicates.modLE := by
        rw [hsl]; exact List.mem_cons_self a t
      exact (List.mem_insertionSort Duplicates.modLE).mp hmem
    · intro f hf
      have hf2 : f ∈ a :: t := by
        rw [← hsl]
        exact (List.mem_insertionSort Duplicates.modLE).mpr hf
      rcases List.mem_cons.mp hf2 with hfk | hft
      · rw [hfk]
      · exact List.rel_of_sorted_cons hs f hft

lemma sorted_getLast_rel :
    ∀ (l : List DuplicateFile), List.Sorted Duplicates.modLE l →
      ∀ (k : DuplicateFile), l.getLast? = some k → ∀ f ∈ l, f.modified ≤ k.modified
  | [], _, k, hk => by cases hk
  | [a], _, k, hk => by
    have hka : k = a := by
      have hsome : some k = some a := by rw [← hk]; simp
      injection hsome
    intro f hf
    have hfa : f = a := by simpa using hf
    rw [hfa, hka]
  | a :: b :: t, hs, k, hk => by
    have hk2 : (b :: t).getLast? = some k := by
      rw [← List.getLast?_cons_cons]
      exact hk
    have ht := sorted_getLast_rel (b :: t) hs.of_cons k hk2
    intro f hf
    rcases List.mem_cons.mp hf with hfa | hf2
    · have hab : Duplicates.modLE a b := List.rel_of_sorted_cons hs b (List.mem_cons_self b t)
      have hbk : b.modified ≤ k.modified := ht b (List.mem_cons_self b t)
      rw [hfa]
      exact le_trans hab hbk
    · exact ht f hf2

lemma getLast_max (l : List DuplicateFile) (k : DuplicateFile)
    (hk : (l.insertionSort Duplicates.modLE).getLast? = some k) :
    k ∈ l ∧ ∀ f ∈ l, f.modified ≤ k.modified := by
  have hs := List.sorted_insertionSort Duplicates.modLE l
  constructor
  · exact (List.mem_insertionSort Duplicates.modLE).mp (List.mem_of_getLast?_eq_some hk)
  · intro f hf
    exact sorted_getLast_rel _ hs k hk f ((List.mem_insertionSort Duplicates.modLE).mpr hf)

/-- C1: smartSelect applies its per-group rule to every duplicate group
independently; in a group with a non-empty member list whose members have
pairwise-distinct modification times and ids, strategy oldest marks every
member selected except the unique member with the minimal modification
time, which ends unselected, and strategy newest does the same for the
unique member with the maximal modification time. -/
theorem smartSelect_keeps_extremum :
    (∀ (strategy : Duplicates.Strategy) (s : AppState),
        (Duplicates.smartSelect strategy s).duplicates =
          s.duplicates.map (Duplicates.smartSelectGroup strategy)) ∧
    (∀ g : DuplicateGroup, g.files ≠ [] →
        g.files.Pairwise (fun a b => a.modified ≠ b.modified) →
        g.files.Pairwise (fun a b => a.id ≠ b.id) →
        ∃ keep, keep ∈ g.files ∧
          (∀ f ∈ g.files, f ≠ keep → keep.modified < f.modified) ∧
          (Duplicates.smartSelectGroup Duplicates.Strategy.oldest g).files =
            g.files.map (fun f =>
              if f = keep then { f with isSelected := false }
              else { f with isSelected := true })) ∧
    (∀ g : DuplicateGroup, g.files ≠ [] →
        g.files.Pairwise (fun a b => a.modified ≠ b.modified) →
        g.files.Pairwise (fun a b => a.id ≠ b.id) →
        ∃ keep, keep ∈ g.files ∧
          (∀ f ∈ g.files, f ≠ keep → f.modified < keep.modified) ∧
          (Duplicates.smartSelectGroup Duplicates.Strategy.newest g).files =
            g.files.map (fun f =>
              if f = keep then { f with isSelected := false }
              else { f with isSelected := true })) := by
  have hsymmod : Symmetric (fun a b : DuplicateFile => a.modified ≠ b.modified) :=
    fun a b h he => h he.symm
  have hsymid : Symmetric (fun a b : DuplicateFile => a.id ≠ b.id) :=
    fun a b h he => h he.symm
  refine ⟨fun strategy s => rfl, ?_, ?_⟩
  · intro g hne hmod hid
    have hlen : (g.files.insertionSort Duplicates.modLE) ≠ [] := by
      intro hnil
      have hperm := List.perm_insertionSort Duplicates.modLE g.files
      rw [hnil] at hperm
      exact hne hperm.symm.eq_nil
    obtain ⟨keep, hkeq⟩ : ∃ k, (g.files.insertionSort Duplicates.modLE).head? = some k := by
      cases hh : (g.files.insertionSort Duplicates.modLE).head? with
      | none => exact absurd (List.head?_eq_none_iff.mp hh) hlen
      | some k => exact ⟨k, rfl⟩
    obtain ⟨hkm, hmin⟩ := head_min g.files keep hkeq
    refine ⟨keep, hkm, ?_, ?_⟩
    · intro f hf hfk
      have hle := hmin f hf
      have hne2 : keep.modified ≠ f.modified :=
        hmod.forall hsymmod hkm hf (fun he => hfk he.symm)
      exact lt_of_le_of_ne hle hne2
    · simp only [Duplicates.smartSelectGroup, hkeq]
      apply List.map_congr_left
      intro f hf
      by_cases hfk : f = keep
      · subst hfk
        simp
      · have hidne : f.id ≠ keep.id := hid.forall hsymid hf hkm hfk
        simp [hfk, bne_iff_ne, hidne]
  · intro g hne hmod hid
    have hlen : (g.files.insertionSort Duplicates.modLE) ≠ [] := by
      intro hnil
      have hperm := List.perm_insertionSort Duplicates.modLE g.files
      rw [hnil] at hperm
      exact hne hperm.symm.eq_nil
    obtain ⟨keep, hkeq⟩ : ∃ k, (g.files.insertionSort Duplicates.modLE).getLast? = some k := by
      cases hh : (g.files.insertionSort Duplicates.modLE).getLast? with
      | none => exact absurd (List.getLast?_eq_none_iff.mp hh) hlen
      | some k => exact ⟨k, rfl⟩
    obtain ⟨hkm, hmax⟩ := getLast_max g.files keep hkeq
    refine ⟨keep, hkm, ?_, ?_⟩
    · intro f hf hfk
      have hle := hmax f hf
      have hne2 : f.modified ≠ keep.modified :=
        hmod.forall hsymmod hf hkm hfk
      exact lt_of_le_of_ne hle hne2
    · simp only [Duplicates.smartSelectGroup, hkeq]
      apply List.map_congr_left
      intro f hf
      by_cases hfk : f = keep
      · subst hfk
        simp
      · have hidne : f.id ≠ keep.id := hid.forall hsymid hf hkm hfk
        simp [hfk, bne_iff_ne, hidne]

/-- Witness for C1 at the scenario group of three files with distinct
modification times (the oldest sitting second): strategy oldest ends with
exactly the two newer files selected and the oldest unselected. -/
theorem smartSelect_keeps_extremum_witness :
    (Duplicates.smartSelectGroup Duplicates.Strategy.oldest sampleGroup).files.map
        (fun f => f.isSelected) = [true, false, true] ∧
    (∃ keep, keep ∈ sampleGroup.files ∧
      (∀ f ∈ sampleGroup.files, f ≠ keep → keep.modified < f.modified) ∧
      (Duplicates.smartSelectGroup Duplicates.Strategy.oldest sampleGroup).files =
        sampleGroup.files.map (fun f =>
          if f = keep then { f with isSelected := false }
          else { f with isSelected := true })) :=
  ⟨by decide,
   smartSelect_keeps_extremum.2.1 sampleGroup (by decide) (by decide) (by decide)⟩
